import Mathlib

set_option maxRecDepth 100000

/-!
Verification of the segmentation-and-sequential-synthesis pipeline of
`src/gradio_app.py` (Kani-TTS-Vie).

A Python `str` is modelled as a `List Char` (`PyStr`): Python strings are
sequences of Unicode code points, `len` counts code points, and slicing is
positional, which `List Char` reflects exactly.  Floats that the code only
adds, compares to zero, or divides (elapsed seconds, waveform samples,
duration) are modelled as exact rationals `ℚ`.
-/

/-- Python `str` as a list of Unicode code points. -/
abbrev PyStr := List Char

/-- The sentence-terminal punctuation class `[.!?;:…]` of `sentence_end_re`
(src/gradio_app.py line 69). -/
def isTerminal (c : Char) : Bool :=
  c = '.' || c = '!' || c = '?' || c = ';' || c = ':' || c = '…'

/-- Whitespace as recognised by Python `str.strip()` and the regex class `\s`
under `re.UNICODE`: the ASCII whitespace characters plus the Unicode
space/separator code points. -/
def isPySpace (c : Char) : Bool :=
  c = ' ' || c = '\t' || c = '\n' || c = '\r' || c = '\x0b' || c = '\x0c' ||
  c = '\x1c' || c = '\x1d' || c = '\x1e' || c = '\x1f' || c = '\x85' ||
  c = '\xa0' || c.toNat = 0x1680 || (0x2000 <= c.toNat && c.toNat <= 0x200a) ||
  c.toNat = 0x2028 || c.toNat = 0x2029 || c.toNat = 0x202f ||
  c.toNat = 0x205f || c.toNat = 0x3000

/-- Python `str.strip()`: drop whitespace from both ends. -/
def pyStrip (s : PyStr) : PyStr :=
  ((s.dropWhile isPySpace).reverse.dropWhile isPySpace).reverse

/-- One scan step of `sentence_end_re.finditer(text)` for the pattern
`([^.!?;:…]+[.!?;:…]|\S+\s*$)` (src/gradio_app.py lines 69-70), unravelled
into its compiled behaviour:

* at a position whose character is not terminal punctuation and with a
  terminal character somewhere to the right, the first alternative matches
  the (greedy, maximal) run of non-terminal characters together with the
  terminal character that ends it, and scanning resumes after that match;
* otherwise the second alternative matches the entire remaining suffix iff
  the current character is non-whitespace and the suffix consists of one
  non-whitespace run followed only by whitespace up to end of string
  (`\S+\s*$`); greediness makes the match absorb the trailing whitespace;
* otherwise there is no match at this position and the scanner advances by
  one character.

The fuel argument only drives the recursion: every step consumes at least
one character, so fuel `s.length` is always sufficient. -/
def scanAux : Nat → List Char → List (List Char)
  | 0, _ => []
  | _, [] => []
  | fuel + 1, c₀ :: s' =>
    let s := c₀ :: s'
    if isTerminal c₀ then
      -- the first alternative needs at least one non-terminal char: try `\S+\s*$`
      if !isPySpace c₀ && (s.dropWhile (fun c => !isPySpace c)).all isPySpace then
        [s]
      else
        scanAux fuel s'
    else
      match s.dropWhile (fun c => !isTerminal c) with
      | r :: rs => (s.takeWhile (fun c => !isTerminal c) ++ [r]) :: scanAux fuel rs
      | [] =>
        if !isPySpace c₀ && (s.dropWhile (fun c => !isPySpace c)).all isPySpace then
          [s]
        else
          scanAux fuel s'

/-- `[m.group(0) for m in sentence_end_re.finditer(text)]`. -/
def finditerMatches (text : PyStr) : List PyStr :=
  scanAux text.length text

/-- The hard-slicing fallback for an oversize sentence (src/gradio_app.py
lines 86-90): `for i in range(0, len(sent), max_chunk_len)` take the slice
`sent[i : i + max_chunk_len]`, strip it, and keep it when non-empty. -/
def hardSlice (maxLen : Nat) (sent : PyStr) : List PyStr :=
  ((List.range ((sent.length + maxLen - 1) / maxLen)).map
      (fun i => pyStrip ((sent.drop (i * maxLen)).take maxLen))).filter
    (fun sub => sub ≠ [])

/-- The greedy packing loop of `_split_text_by_punctuation`
(src/gradio_app.py lines 75-102), with the accumulated `chunks` and the
running accumulator `current` made explicit.  Python string truthiness
(`if not sent`, `if current`) is emptiness, and
`f"{current} {sent}"` is `current ++ ' ' :: sent`. -/
def packChunks (maxLen : Nat) : List PyStr → List PyStr → PyStr → List PyStr
  | [], chunks, current =>
    if current = [] then chunks else chunks ++ [pyStrip current]
  | sent :: rest, chunks, current =>
    if sent = [] then packChunks maxLen rest chunks current
    else if maxLen < sent.length then
      packChunks maxLen rest
        ((if current = [] then chunks else chunks ++ [pyStrip current]) ++
          hardSlice maxLen sent) []
    else if current = [] then packChunks maxLen rest chunks sent
    else if current.length + 1 + sent.length ≤ maxLen then
      packChunks maxLen rest chunks (current ++ ' ' :: sent)
    else
      packChunks maxLen rest (chunks ++ [pyStrip current]) sent

/-- `_split_text_by_punctuation(text, max_chunk_len)` (src/gradio_app.py
lines 57-104): strip, split into sentence-like units by the punctuation
regex, fall back to the whole text when no unit was found, then greedily
pack units into chunks of at most `max_chunk_len` characters, hard-slicing
any single oversize unit. -/
def _split_text_by_punctuation (text : PyStr) (maxLen : Nat) : List PyStr :=
  let text := pyStrip text
  if text = [] then []
  else
    let sentences := (finditerMatches text).map pyStrip
    let sentences := if sentences = [] then [text] else sentences
    packChunks maxLen sentences [] []

-- sanity checks of the embedding against the documented regex examples
example :
    _split_text_by_punctuation ("Xin chào. Bạn khỏe không?".toList) 250 =
      ["Xin chào. Bạn khỏe không?".toList] := by decide

example :
    _split_text_by_punctuation ("abc def".toList) 250 = ["def".toList] := by decide

example :
    _split_text_by_punctuation ("aaa bbb".toList) 3 = ["bbb".toList] := by decide

example : finditerMatches ("a..".toList) = ["a.".toList, ".".toList] := by decide

example : hardSlice 3 ("aaa bbb".toList) =
    ["aaa".toList, "bb".toList, "b".toList] := by decide

/-- `MAX_TEXT_LEN = 8000` (src/gradio_app.py line 25). -/
def MAX_TEXT_LEN : Nat := 8000

/-- `MAX_CHARS_PER_CHUNK = 250` (src/gradio_app.py line 26). -/
def MAX_CHARS_PER_CHUNK : Nat := 250

/-- `SAMPLE_RATE = 22050` (src/gradio_app.py line 40). -/
def SAMPLE_RATE : Nat := 22050

/-- `SPEAKER_CHOICES` (src/gradio_app.py lines 15-22): human label paired
with an optional speaker identifier; the last entry maps to `None`. -/
def SPEAKER_CHOICES : List (String × Option String) :=
  [("Khoa – Nam miền Bắc", some "nam-mien-bac"),
   ("Hùng – Nam miền Nam", some "nam-mien-nam"),
   ("Trinh – Nữ miền Nam", some "nu-mien-nam"),
   ("David – English (British)", some "david"),
   ("Katie – English (Irish)", some "katie"),
   ("Không chỉ định", none)]

/-- `dict(SPEAKER_CHOICES).get(speaker_label, None)` (src/gradio_app.py
line 118): the value stored under the label, or `None` when the label is
not a key (the labels are pairwise distinct, so first-match lookup agrees
with the Python dict). -/
def speakerGet (speaker_label : String) : Option String :=
  match SPEAKER_CHOICES.find? (fun p => p.1 = speaker_label) with
  | some p => p.2
  | none => none

/-- The external collaborators of the pipeline, as opaque parameters:

* `run` models `_run_standard(text, speaker_id)` (src/gradio_app.py lines
  50-54): one call to the synthesis model timed with a wall clock.  The
  outer `Option` is `none` when the call raises (caught by the `except`
  of `synthesize`), otherwise it returns the waveform — itself possibly
  `None` — together with the measured elapsed seconds.
* `normalize` models `NORMALIZER.normalize`, a total text transform.

Waveform samples and elapsed seconds are modelled as exact rationals. -/
structure SynthOracle where
  run : PyStr → Option String → Option (Option (List ℚ) × ℚ)
  normalize : PyStr → PyStr

/-- The terminal outcome of one invocation of `synthesize`
(src/gradio_app.py lines 108-169).  The generator's advisory progress
messages carry no data and are not modelled; each early `return` after an
error message is a `Failure` constructor, and the final yield of the
finished waveform is `success` with the concatenated audio, the summed
elapsed time, the duration `len(audio_full) / SAMPLE_RATE`, and
`len(raw_chunks)`. -/
inductive Outcome where
  | emptyInput : Outcome
  | textTooLong (n : Nat) : Outcome
  | noValidContent : Outcome
  | chunkSynthesisEmpty (i : Nat) : Outcome
  | chunkSynthesisFailed : Outcome
  | noAudioProduced : Outcome
  | success (audio : List ℚ) (totalElapsed : ℚ) (duration : ℚ)
      (chunkCount : Nat) : Outcome
deriving DecidableEq

/-- `chunk_text = NORMALIZER.normalize(chunk) if normalize else chunk`
(src/gradio_app.py line 143). -/
def chunkText (o : SynthOracle) (normalize : Bool) (chunk : PyStr) : PyStr :=
  if normalize then o.normalize chunk else chunk

/-- The per-chunk loop of `synthesize` (src/gradio_app.py lines 138-155):
`for idx, chunk in enumerate(raw_chunks, start=1)` normalize, run the
model, accumulate elapsed time, abort on an absent or zero-length
waveform (`audio is None or len(audio) == 0`), append otherwise; any
exception aborts with the generic inference error. -/
def synthLoop (o : SynthOracle) (normalize : Bool) (sp : Option String) :
    List PyStr → Nat → List (List ℚ) → ℚ → Except Outcome (List (List ℚ) × ℚ)
  | [], _, audios, total => .ok (audios, total)
  | chunk :: rest, idx, audios, total =>
    match o.run (chunkText o normalize chunk) sp with
    | none => .error .chunkSynthesisFailed
    | some (a?, elapsed) =>
      match a? with
      | none => .error (.chunkSynthesisEmpty idx)
      | some a =>
        if a = [] then .error (.chunkSynthesisEmpty idx)
        else synthLoop o normalize sp rest (idx + 1) (audios ++ [a]) (total + elapsed)

/-- `synthesize(text, speaker_label, normalize)` (src/gradio_app.py lines
108-169): strip and validate the text, resolve the speaker label, segment
into chunks, synthesize each chunk in order, and either fail or report the
concatenated waveform with its metrics. -/
def synthesize (o : SynthOracle) (text : PyStr) (speaker_label : String)
    (normalize : Bool) : Outcome :=
  let text := pyStrip text
  if text = [] then .emptyInput
  else if MAX_TEXT_LEN < text.length then .textTooLong text.length
  else
    let speaker_id := speakerGet speaker_label
    let raw_chunks := _split_text_by_punctuation text MAX_CHARS_PER_CHUNK
    if raw_chunks = [] then .noValidContent
    else
      match synthLoop o normalize speaker_id raw_chunks 1 [] 0 with
      | .error out => out
      | .ok (audios, total) =>
        if audios = [] then .noAudioProduced
        else
          let audio_full := audios.flatten
          .success audio_full total
            ((audio_full.length : ℚ) / (SAMPLE_RATE : ℚ)) raw_chunks.length

-- sanity checks of the pipeline embedding
example :
    synthesize ⟨fun _ _ => some (some [0], 3), id⟩ ("  ".toList) "x" false =
      .emptyInput := by decide

example :
    synthesize ⟨fun _ _ => some (some [], 3), id⟩ ("Hi.".toList) "x" false =
      .chunkSynthesisEmpty 1 := by decide

/-! ## General lemmas about the embedding -/

/-- Stripping never lengthens a string. -/
theorem pyStrip_length_le (s : PyStr) : (pyStrip s).length ≤ s.length := by
  unfold pyStrip
  simp only [List.length_reverse]
  calc ((s.dropWhile isPySpace).reverse.dropWhile isPySpace).length
      ≤ (s.dropWhile isPySpace).reverse.length := (List.dropWhile_sublist _).length_le
    _ = (s.dropWhile isPySpace).length := List.length_reverse _
    _ ≤ s.length := (List.dropWhile_sublist _).length_le

/-- Every piece produced by the hard-slicing fallback fits the budget. -/
theorem hardSlice_length_le (maxLen : Nat) (sent : PyStr) :
    ∀ c ∈ hardSlice maxLen sent, c.length ≤ maxLen := by
  intro c hc
  unfold hardSlice at hc
  obtain ⟨hc, -⟩ := List.mem_filter.mp hc
  obtain ⟨i, -, rfl⟩ := List.mem_map.mp hc
  exact le_trans (pyStrip_length_le _) (List.length_take_le _ _)

/-- Invariant of the greedy packing loop: if all already-flushed chunks and
the running accumulator fit the budget, so does every chunk of the final
result. -/
theorem packChunks_length_le (maxLen : Nat) (sents : List PyStr) :
    ∀ (chunks : List PyStr) (current : PyStr),
      (∀ c ∈ chunks, c.length ≤ maxLen) → current.length ≤ maxLen →
      ∀ c ∈ packChunks maxLen sents chunks current, c.length ≤ maxLen := by
  induction sents with
  | nil =>
    intro chunks current hchunks hcur c hc
    unfold packChunks at hc
    split at hc
    · exact hchunks c hc
    · rcases List.mem_append.mp hc with h | h
      · exact hchunks c h
      · rw [List.mem_singleton.mp h]
        exact le_trans (pyStrip_length_le _) hcur
  | cons sent rest ih =>
    intro chunks current hchunks hcur c hc
    unfold packChunks at hc
    split at hc
    · exact ih chunks current hchunks hcur c hc
    · split at hc
      · refine ih _ [] ?_ (by simp) c hc
        intro d hd
        rcases List.mem_append.mp hd with h | h
        · split at h
          · exact hchunks d h
          · rcases List.mem_append.mp h with h' | h'
            · exact hchunks d h'
            · rw [List.mem_singleton.mp h']
              exact le_trans (pyStrip_length_le _) hcur
        · exact hardSlice_length_le maxLen sent d h
      · split at hc
        · exact ih chunks sent hchunks (by omega) c hc
        · split at hc
          · refine ih chunks _ hchunks ?_ c hc
            simp only [List.length_append, List.length_cons]
            omega
          · refine ih _ sent ?_ (by omega) c hc
            intro d hd
            rcases List.mem_append.mp hd with h | h
            · exact hchunks d h
            · rw [List.mem_singleton.mp h]
              exact le_trans (pyStrip_length_le _) hcur

/-- The elapsed seconds one chunk contributes to the running total: the
second component of what `_run_standard` returns for it (0 for a raising
call, which aborts the pipeline before using it). -/
def elapsedOf (o : SynthOracle) (nrm : Bool) (sp : Option String)
    (chunk : PyStr) : ℚ :=
  match o.run (chunkText o nrm chunk) sp with
  | some (_, e) => e
  | none => 0

/-- When the per-chunk loop terminates normally it has appended exactly one
waveform per chunk and added exactly the per-chunk elapsed times; when it
aborts, the error is an inference failure or an empty-chunk failure. -/
theorem synthLoop_ok_or_error (o : SynthOracle) (nrm : Bool) (sp : Option String) :
    ∀ (chunks : List PyStr) (idx : Nat) (audios : List (List ℚ)) (total : ℚ),
      (∃ as t, synthLoop o nrm sp chunks idx audios total = .ok (as, t) ∧
          as.length = audios.length + chunks.length ∧
          t = total + (chunks.map (elapsedOf o nrm sp)).sum) ∨
      (∃ e, synthLoop o nrm sp chunks idx audios total = .error e ∧
          (e = .chunkSynthesisFailed ∨ ∃ i, e = .chunkSynthesisEmpty i)) := by
  intro chunks
  induction chunks with
  | nil =>
    intro idx audios total
    exact Or.inl ⟨audios, total, rfl, by simp, by simp [synthLoop]⟩
  | cons c rest ih =>
    intro idx audios total
    unfold synthLoop
    cases hrun : o.run (chunkText o nrm c) sp with
    | none => exact Or.inr ⟨_, rfl, Or.inl rfl⟩
    | some pr =>
      obtain ⟨a?, elapsed⟩ := pr
      cases a? with
      | none => exact Or.inr ⟨_, rfl, Or.inr ⟨idx, rfl⟩⟩
      | some a =>
        dsimp only
        by_cases ha : a = []
        · rw [if_pos ha]
          exact Or.inr ⟨_, rfl, Or.inr ⟨idx, rfl⟩⟩
        · rw [if_neg ha]
          rcases ih (idx + 1) (audios ++ [a]) (total + elapsed) with
            ⟨as, t, heq, hlen, ht⟩ | ⟨e, heq, hk⟩
          · refine Or.inl ⟨as, t, heq, ?_, ?_⟩
            · simp only [List.length_append, List.length_singleton, List.length_nil,
                List.length_cons] at hlen ⊢
              omega
            · rw [ht]
              simp only [List.map_cons, List.sum_cons, elapsedOf, hrun]
              ring
          · exact Or.inr ⟨e, heq, hk⟩

/-- If every chunk before some chunk `c` synthesizes a non-empty waveform
and `c` itself yields an absent or zero-length one, the loop aborts at `c`
with the empty-chunk failure carrying the 1-indexed position of `c`. -/
theorem synthLoop_first_empty (o : SynthOracle) (nrm : Bool) (sp : Option String) :
    ∀ (pre : List PyStr) (c : PyStr) (rest : List PyStr) (idx : Nat)
      (audios : List (List ℚ)) (total : ℚ),
      (∀ p ∈ pre, ∃ a e, o.run (chunkText o nrm p) sp = some (some a, e) ∧ a ≠ []) →
      (∃ a? e, o.run (chunkText o nrm c) sp = some (a?, e) ∧
          (a? = none ∨ a? = some [])) →
      synthLoop o nrm sp (pre ++ c :: rest) idx audios total =
        .error (.chunkSynthesisEmpty (idx + pre.length)) := by
  intro pre
  induction pre with
  | nil =>
    intro c rest idx audios total _ hc
    obtain ⟨a?, e, hrun, hcase⟩ := hc
    unfold synthLoop
    simp only [List.nil_append]
    rw [hrun]
    rcases hcase with rfl | rfl <;> simp
  | cons p pre ih =>
    intro c rest idx audios total hpre hc
    obtain ⟨a, e, hrun, hane⟩ := hpre p (List.mem_cons_self p pre)
    unfold synthLoop
    simp only [List.cons_append]
    rw [hrun]
    dsimp only
    rw [if_neg hane,
      ih c rest (idx + 1) _ _ (fun q hq => hpre q (List.mem_cons_of_mem p hq)) hc]
    have harith : idx + 1 + pre.length = idx + (p :: pre).length := by
      simp only [List.length_cons]
      omega
    rw [harith]

/-- Evaluation scaffold for `synthesize` on a request that passes both
validations and segments into a non-empty chunk list: the outcome is
determined by the per-chunk loop. -/
theorem synthesize_eval (o : SynthOracle) (text : PyStr) (label : String)
    (nrm : Bool) (chunks : List PyStr)
    (h1 : pyStrip text ≠ []) (h2 : (pyStrip text).length ≤ MAX_TEXT_LEN)
    (h3 : _split_text_by_punctuation (pyStrip text) MAX_CHARS_PER_CHUNK = chunks)
    (h4 : chunks ≠ []) :
    synthesize o text label nrm =
      match synthLoop o nrm (speakerGet label) chunks 1 [] 0 with
      | .error out => out
      | .ok (audios, total) =>
        if audios = [] then .noAudioProduced
        else .success audios.flatten total
          ((audios.flatten.length : ℚ) / (SAMPLE_RATE : ℚ)) chunks.length := by
  simp only [synthesize]
  rw [if_neg h1, if_neg (Nat.not_lt.mpr h2), h3, if_neg h4]

/-- A concrete oracle used by witnesses: every call succeeds with a fixed
one-sample waveform after 3 seconds. -/
def oracleConstW : SynthOracle := ⟨fun _ _ => some (some [0], 3), id⟩

/-! ## The claims -/

/-- Claim C1 (evidence of the code bug): the input "abc def" has
non-whitespace content, is far below `max_total_chars`, and contains no
sentence-terminal punctuation; the fallback alternative `\S+\s*$` of
`sentence_end_re` matches only the final word, so
`_split_text_by_punctuation` returns `["def"]` and silently drops "abc".
The chunks joined by single spaces are therefore not whitespace-equivalent
to the trimmed input (their non-whitespace characters already differ),
contradicting the claimed no-drop content preservation. -/
theorem C1_content_dropped :
    _split_text_by_punctuation ("abc def".toList) 250 = ["def".toList] ∧
    (List.intercalate [' ']
        (_split_text_by_punctuation ("abc def".toList) 250)).filter
      (fun c => !isPySpace c) ≠
      (pyStrip ("abc def".toList)).filter (fun c => !isPySpace c) := by
  decide

/-- Claim C2 (evidence of the code bug): "aaa bbb" contains no
sentence-terminal punctuation, so per the claim the whole trimmed text
should be one oversize unit for budget 3, hard-sliced into
`["aaa", "bb", "b"]`; the code instead keeps only the final word "bbb"
(matched by the fallback `\S+\s*$`), never treats the whole text as one
unit, and loses the leading content. -/
theorem C2_no_punctuation_not_whole_text :
    _split_text_by_punctuation ("aaa bbb".toList) 3 = ["bbb".toList] ∧
    hardSlice 3 (pyStrip ("aaa bbb".toList)) =
      ["aaa".toList, "bb".toList, "b".toList] ∧
    _split_text_by_punctuation ("aaa bbb".toList) 3 ≠
      hardSlice 3 (pyStrip ("aaa bbb".toList)) := by
  decide

/-- Claim C3: for every input text and every positive budget, every chunk
returned by `_split_text_by_punctuation` has length at most the budget,
including the pieces produced by the fixed-width slicing fallback. -/
theorem C3_chunk_length_bound (text : PyStr) (maxLen : Nat)
    (hpos : 0 < maxLen) :
    ∀ c ∈ _split_text_by_punctuation text maxLen, c.length ≤ maxLen := by
  intro c hc
  simp only [_split_text_by_punctuation] at hc
  split at hc
  · simp at hc
  · exact packChunks_length_le maxLen _ [] [] (by simp) (by simp) c hc

/-- Witness for C3 at a concrete text and budget. -/
theorem C3_chunk_length_bound_witness :
    0 < 4 ∧ ∀ c ∈ _split_text_by_punctuation ("Ab. Cd! Ef".toList) 4,
      c.length ≤ 4 :=
  ⟨by decide, C3_chunk_length_bound ("Ab. Cd! Ef".toList) 4 (by decide)⟩

/-- Claim C9: the segmenter is deterministic and reads no hidden state —
two calls with identical text and budget give identical chunk sequences.
In this embedding `_split_text_by_punctuation` is a function of exactly
its two arguments, mirroring the Python function, which touches only its
parameters and a constant regex. -/
theorem C9_segmenter_deterministic (t₁ t₂ : PyStr) (m₁ m₂ : Nat)
    (ht : t₁ = t₂) (hm : m₁ = m₂) :
    _split_text_by_punctuation t₁ m₁ = _split_text_by_punctuation t₂ m₂ := by
  rw [ht, hm]

/-- Witness for C9: two calls on the same concrete input coincide. -/
theorem C9_segmenter_deterministic_witness :
    _split_text_by_punctuation ("Xin chào.".toList) 250 =
      _split_text_by_punctuation ("Xin chào.".toList) 250 :=
  C9_segmenter_deterministic ("Xin chào.".toList) ("Xin chào.".toList)
    250 250 rfl rfl

/-- Claim C10: a speaker label outside the fixed choice list resolves to
no identifier (as the explicit "Không chỉ định" label does), and a label
that resolves to no identifier leaves `synthesize` behaving exactly as
with the explicit unspecified-voice label — so an unknown label proceeds
with synthesis and never by itself causes a failure outcome. -/
theorem C10_unknown_speaker (label : String) :
    (label ∉ SPEAKER_CHOICES.map Prod.fst → speakerGet label = none) ∧
    speakerGet "Không chỉ định" = none ∧
    (∀ (o : SynthOracle) (text : PyStr) (nrm : Bool),
      speakerGet label = none →
      synthesize o text label nrm = synthesize o text "Không chỉ định" nrm) := by
  refine ⟨?_, by decide, ?_⟩
  · intro hnot
    unfold speakerGet
    rw [List.find?_eq_none.mpr]
    · intro q hq
      simp only [decide_eq_true_eq]
      intro hq1
      exact hnot (List.mem_map.mpr ⟨q, hq, hq1⟩)
  · intro o text nrm h
    simp only [synthesize]
    rw [h, show speakerGet "Không chỉ định" = none by decide]

/-- Witness for C10 at a concrete unknown label. -/
theorem C10_unknown_speaker_witness :
    speakerGet "someone else" = none ∧
    synthesize oracleConstW ("Hi.".toList) "someone else" false =
      synthesize oracleConstW ("Hi.".toList) "Không chỉ định" false :=
  ⟨(C10_unknown_speaker "someone else").1 (by decide),
   (C10_unknown_speaker "someone else").2.2 oracleConstW ("Hi.".toList) false
     ((C10_unknown_speaker "someone else").1 (by decide))⟩

/-- Claim C4: if every chunk before position i succeeds with non-empty
audio and the synthesis of chunk i (1-indexed) returns an absent or
zero-length waveform, `synthesize` terminates with the empty-chunk
failure naming chunk i — never a success; the failure constructor carries
no audio, so the waveforms of chunks 1..i-1 are discarded, not surfaced
as partial audio. -/
theorem C4_empty_chunk_aborts (o : SynthOracle) (text : PyStr)
    (label : String) (nrm : Bool) (pre : List PyStr) (c : PyStr)
    (rest : List PyStr)
    (h1 : pyStrip text ≠ []) (h2 : (pyStrip text).length ≤ MAX_TEXT_LEN)
    (h3 : _split_text_by_punctuation (pyStrip text) MAX_CHARS_PER_CHUNK =
      pre ++ c :: rest)
    (hpre : ∀ p ∈ pre, ∃ a e,
      o.run (chunkText o nrm p) (speakerGet label) = some (some a, e) ∧ a ≠ [])
    (hc : ∃ a? e, o.run (chunkText o nrm c) (speakerGet label) = some (a?, e) ∧
      (a? = none ∨ a? = some [])) :
    synthesize o text label nrm = .chunkSynthesisEmpty (pre.length + 1) ∧
    ∀ au t d k, synthesize o text label nrm ≠ .success au t d k := by
  have heval := synthesize_eval o text label nrm (pre ++ c :: rest) h1 h2 h3
    (by simp)
  rw [synthLoop_first_empty o nrm (speakerGet label) pre c rest 1 [] 0 hpre hc]
    at heval
  dsimp only at heval
  rw [Nat.add_comm 1 pre.length] at heval
  exact ⟨heval, fun au t d k h => by rw [heval] at h; exact absurd h (by simp)⟩

/-- Witness for C4: a 251-character unpunctuated word splits into a chunk
of 250 characters and a chunk "a"; the oracle succeeds on the first chunk
and returns an absent waveform on the second, so the pipeline fails
naming chunk 2. -/
theorem C4_empty_chunk_aborts_witness :
    synthesize ⟨fun t _ => if t = ['a'] then some (none, 2) else some (some [0], 1), id⟩
        (List.replicate 251 'a') "x" false = .chunkSynthesisEmpty 2 ∧
    synthesize ⟨fun t _ => if t = ['a'] then some (none, 2) else some (some [0], 1), id⟩
        (List.replicate 251 'a') "x" false ≠ .success [0] 1 1 2 := by
  have h := C4_empty_chunk_aborts
    ⟨fun t _ => if t = ['a'] then some (none, 2) else some (some [0], 1), id⟩
    (List.replicate 251 'a') "x" false [List.replicate 250 'a'] ['a'] []
    (by decide) (by decide) (by decide)
    (by
      intro p hp
      rw [List.mem_singleton.mp hp]
      exact ⟨[0], 1, by decide, by decide⟩)
    ⟨none, 2, by decide, Or.inl rfl⟩
  exact ⟨h.1, h.2 [0] 1 1 2⟩

/-- Claim C5: validation comes first — for every oracle (so before any
synthesis work and independently of it), an input that strips to empty
yields the empty-input failure, and a stripped input longer than
`MAX_TEXT_LEN` yields the too-long failure carrying the offending length;
both guards sit before segmentation and before the chunk loop in
`synthesize`. -/
theorem C5_validation_first (o : SynthOracle) (text : PyStr) (label : String)
    (nrm : Bool) :
    (pyStrip text = [] → synthesize o text label nrm = .emptyInput) ∧
    (MAX_TEXT_LEN < (pyStrip text).length →
      synthesize o text label nrm = .textTooLong (pyStrip text).length) := by
  constructor
  · intro h
    simp only [synthesize]
    rw [if_pos h]
  · intro h
    have hne : pyStrip text ≠ [] := by
      intro hnil
      rw [hnil] at h
      simp [MAX_TEXT_LEN] at h
    simp only [synthesize]
    rw [if_neg hne, if_pos h]

/-- Stripping a repetition of a non-whitespace character is the identity. -/
theorem pyStrip_replicate (n : Nat) (c : Char) (h : isPySpace c = false) :
    pyStrip (List.replicate n c) = List.replicate n c := by
  unfold pyStrip
  rw [List.dropWhile_replicate, if_neg (by simp [h]), List.reverse_replicate,
    List.dropWhile_replicate, if_neg (by simp [h]), List.reverse_replicate]

/-- Witness for C5: whitespace-only input fails as empty, an input of
8001 characters fails as too long. -/
theorem C5_validation_first_witness :
    synthesize oracleConstW ("  ".toList) "x" true = .emptyInput ∧
    synthesize oracleConstW (List.replicate 8001 'a') "x" true =
      .textTooLong 8001 := by
  have hstrip := pyStrip_replicate 8001 'a' (by decide)
  refine ⟨(C5_validation_first oracleConstW ("  ".toList) "x" true).1 (by decide), ?_⟩
  have h := (C5_validation_first oracleConstW (List.replicate 8001 'a') "x" true).2
    (by rw [hstrip, List.length_replicate]; decide)
  rw [h, hstrip, List.length_replicate]

/-- Claim C6: the defensive no-audio branch is unreachable — no invocation
of `synthesize` ever terminates with the `noAudioProduced` outcome: when
control reaches that check the chunk list was non-empty and every chunk
contributed one waveform, so the accumulated audio list is non-empty. -/
theorem C6_noAudio_unreachable (o : SynthOracle) (text : PyStr)
    (label : String) (nrm : Bool) :
    synthesize o text label nrm ≠ .noAudioProduced := by
  intro h
  simp only [synthesize] at h
  by_cases h1 : pyStrip text = []
  · rw [if_pos h1] at h
    exact absurd h (by simp)
  rw [if_neg h1] at h
  by_cases h2 : MAX_TEXT_LEN < (pyStrip text).length
  · rw [if_pos h2] at h
    exact absurd h (by simp)
  rw [if_neg h2] at h
  by_cases h3 : _split_text_by_punctuation (pyStrip text) MAX_CHARS_PER_CHUNK = []
  · rw [if_pos h3] at h
    exact absurd h (by simp)
  rw [if_neg h3] at h
  rcases synthLoop_ok_or_error o nrm (speakerGet label)
      (_split_text_by_punctuation (pyStrip text) MAX_CHARS_PER_CHUNK) 1 [] 0 with
    ⟨as, t, heq, hlen, -⟩ | ⟨e, heq, hk⟩
  · rw [heq] at h
    dsimp only at h
    have hasne : as ≠ [] := by
      intro hnil
      rw [hnil] at hlen
      simp only [List.length_nil] at hlen
      exact h3 (List.length_eq_zero.mp (by omega))
    rw [if_neg hasne] at h
    exact absurd h (by simp)
  · rw [heq] at h
    dsimp only at h
    rcases hk with rfl | ⟨i, rfl⟩ <;> simp at h

/-- Witness for C6 at a concrete request. -/
theorem C6_noAudio_unreachable_witness :
    synthesize oracleConstW ("Hi.".toList) "x" false ≠ .noAudioProduced :=
  C6_noAudio_unreachable oracleConstW ("Hi.".toList) "x" false

/-- Inversion of a successful run: a success outcome can only come from
the chunk loop finishing on the segmented chunks, and its fields are the
concatenated audio, the accumulated elapsed total, the exact duration
`samples / SAMPLE_RATE`, and the chunk count. -/
theorem synthesize_success_inv (o : SynthOracle) (text : PyStr)
    (label : String) (nrm : Bool) (au : List ℚ) (t d : ℚ) (k : Nat)
    (h : synthesize o text label nrm = .success au t d k) :
    ∃ as, synthLoop o nrm (speakerGet label)
        (_split_text_by_punctuation (pyStrip text) MAX_CHARS_PER_CHUNK)
        1 [] 0 = .ok (as, t) ∧
      au = as.flatten ∧
      d = ((au.length : ℚ) / (SAMPLE_RATE : ℚ)) ∧
      k = (_split_text_by_punctuation (pyStrip text) MAX_CHARS_PER_CHUNK).length := by
  simp only [synthesize] at h
  by_cases h1 : pyStrip text = []
  · rw [if_pos h1] at h
    exact absurd h (by simp)
  rw [if_neg h1] at h
  by_cases h2 : MAX_TEXT_LEN < (pyStrip text).length
  · rw [if_pos h2] at h
    exact absurd h (by simp)
  rw [if_neg h2] at h
  by_cases h3 : _split_text_by_punctuation (pyStrip text) MAX_CHARS_PER_CHUNK = []
  · rw [if_pos h3] at h
    exact absurd h (by simp)
  rw [if_neg h3] at h
  rcases synthLoop_ok_or_error o nrm (speakerGet label)
      (_split_text_by_punctuation (pyStrip text) MAX_CHARS_PER_CHUNK) 1 [] 0 with
    ⟨as, total, heq, -, -⟩ | ⟨e, heq, hk⟩
  · rw [heq] at h
    dsimp only at h
    by_cases has : as = []
    · rw [if_pos has] at h
      exact absurd h (by simp)
    rw [if_neg has] at h
    obtain ⟨hau, ht, hd, hk⟩ := Outcome.success.inj h.symm
    exact ⟨as, by rw [ht]; exact heq, hau, by rw [hd, hau], hk⟩
  · rw [heq] at h
    dsimp only at h
    rcases hk with rfl | ⟨i, rfl⟩ <;> exact absurd h (by simp)

/-- Claim C7: in every success outcome the reported total elapsed time is
the ordered sum of the per-chunk elapsed times returned by the chunk
synthesizer — not a maximum and not a separate wall-clock measurement.
Elapsed times are modelled as exact rationals, so the claim's
"within floating-point tolerance" is exact equality here. -/
theorem C7_total_elapsed_is_sum (o : SynthOracle) (text : PyStr)
    (label : String) (nrm : Bool) (au : List ℚ) (t d : ℚ) (k : Nat)
    (h : synthesize o text label nrm = .success au t d k) :
    t = ((_split_text_by_punctuation (pyStrip text) MAX_CHARS_PER_CHUNK).map
        (elapsedOf o nrm (speakerGet label))).sum := by
  obtain ⟨as, hloop, -, -, -⟩ := synthesize_success_inv o text label nrm au t d k h
  rcases synthLoop_ok_or_error o nrm (speakerGet label)
      (_split_text_by_punctuation (pyStrip text) MAX_CHARS_PER_CHUNK) 1 [] 0 with
    ⟨as', t', heq, -, ht⟩ | ⟨e, heq, -⟩
  · rw [heq] at hloop
    obtain ⟨-, ht'⟩ := Prod.mk.inj (Except.ok.inj hloop)
    rw [← ht', ht, zero_add]
  · rw [heq] at hloop
    exact absurd hloop (by simp)

/-- Witness for C7: a two-chunk request with per-chunk times 3 and 3 sums
to 6. -/
theorem C7_total_elapsed_is_sum_witness :
    (6 : ℚ) =
      ((_split_text_by_punctuation (pyStrip (List.replicate 251 'a'))
          MAX_CHARS_PER_CHUNK).map
        (elapsedOf oracleConstW false (speakerGet "x"))).sum := by
  have hloop : synthLoop oracleConstW false (speakerGet "x")
      [List.replicate 250 'a', ['a']] 1 [] 0 = .ok ([[0], [0]], 6) := by
    norm_num [synthLoop, oracleConstW, chunkText]
  have hsplit : _split_text_by_punctuation (pyStrip (List.replicate 251 'a'))
      MAX_CHARS_PER_CHUNK = [List.replicate 250 'a', ['a']] := by decide
  have heval := synthesize_eval oracleConstW (List.replicate 251 'a') "x" false
    [List.replicate 250 'a', ['a']] (by decide) (by decide) hsplit (by simp)
  rw [hloop] at heval
  dsimp only at heval
  rw [if_neg (by simp)] at heval
  exact C7_total_elapsed_is_sum oracleConstW (List.replicate 251 'a') "x" false
    ([[0], [0]] : List (List ℚ)).flatten 6
    ((((([[0], [0]] : List (List ℚ)).flatten).length : ℚ)) / (SAMPLE_RATE : ℚ))
    ([List.replicate 250 'a', ['a']] : List PyStr).length heval

/-- Claim C8: in every success outcome the reported duration equals the
number of samples of the concatenated waveform divided by the configured
sample rate — exact rational arithmetic, with the elapsed synthesis time
appearing nowhere in the equation. -/
theorem C8_duration_exact (o : SynthOracle) (text : PyStr) (label : String)
    (nrm : Bool) (au : List ℚ) (t d : ℚ) (k : Nat)
    (h : synthesize o text label nrm = .success au t d k) :
    d = ((au.length : ℚ) / (SAMPLE_RATE : ℚ)) := by
  obtain ⟨-, -, -, hd, -⟩ := synthesize_success_inv o text label nrm au t d k h
  exact hd

/-- Witness for C8: a one-chunk success with a two-sample waveform reports
duration 2 / 22050 seconds exactly. -/
theorem C8_duration_exact_witness :
    ((2 : ℚ) / 22050) =
      ((([(0 : ℚ), 0] : List ℚ).length : ℚ) / (SAMPLE_RATE : ℚ)) := by
  have hloop : synthLoop ⟨fun _ _ => some (some [0, 0], 5), id⟩ false
      (speakerGet "x") ["Ok.".toList] 1 [] 0 = .ok ([[0, 0]], 5) := by
    norm_num [synthLoop, chunkText]
    intro hcontra
    exact absurd hcontra (by simp)
  have heval := synthesize_eval ⟨fun _ _ => some (some [0, 0], 5), id⟩
    ("Ok.".toList) "x" false ["Ok.".toList] (by decide) (by decide) (by decide)
    (by simp)
  rw [hloop] at heval
  dsimp only at heval
  rw [if_neg (by simp)] at heval
  have heval2 : synthesize ⟨fun _ _ => some (some [0, 0], 5), id⟩
      ("Ok.".toList) "x" false =
      .success [0, 0] 5 ((2 : ℚ) / 22050) 1 := by
    rw [heval]
    norm_num [SAMPLE_RATE]
  exact C8_duration_exact ⟨fun _ _ => some (some [0, 0], 5), id⟩
    ("Ok.".toList) "x" false [0, 0] 5 ((2 : ℚ) / 22050) 1 heval2
